import Mathlib

/-!
Verification of the hyprland-go IPC client core.

The Go source is embedded shallowly: Go byte strings ([]byte and string)
become `List Char` (one `Char` per byte; every byte handled here is ASCII),
fallible Go functions become `Except`-valued Lean functions, a `panic` in
the source becomes an explicit `panicked` outcome constructor, and the
network connection is replaced by explicit oracles (dial result, write
result, a script of read results) passed as arguments.
-/

namespace Hyprland

/-- Go: `type RawRequest []byte`. -/
abbrev RawRequest := List Char

/-- Go: `type RawResponse []byte`. -/
abbrev RawResponse := List Char

/-- Go: `type RawData string`. -/
abbrev RawData := List Char

/-- Go: `type EventType string`. -/
abbrev EventType := List Char

/-- Go: `const BUF_SIZE = 8192`. -/
def BUF_SIZE : Nat := 8192

/-- Go: `const MAX_COMMANDS = 30`. -/
def MAX_COMMANDS : Nat := 30

/-- The errors the Go code builds with `errors.New` / `fmt.Errorf`, as an
inductive type carrying the data that the corresponding Go error message
interpolates.  `validationError` carries (got, want, response) exactly as
`fmt.Sprintf("got ok: %d, want: %d, response: %s", got, want, response)`
does. -/
inductive IPCError where
  /-- `errors.New("empty request")` in `Request`. -/
  | emptyRequest
  /-- `errors.New("empty response")` in `validateResponse` / `unmarshalResponse`. -/
  | emptyResponse
  /-- the `got ok: %d, want: %d, response: %s` error in `validateResponse`. -/
  | validationError (got want : Nat) (response : RawResponse)
  /-- `fmt.Errorf("error during unmarshal: %w", err)` in `unmarshalResponse`. -/
  | unmarshalError (cause : List Char)
  /-- `errors.New("empty request or event socket")` in `NewClient`. -/
  | emptySocketPaths
  /-- `fmt.Errorf("error while connecting to socket: %w", err)` /
  `fmt.Errorf("error while writing to socket: %w", err)`. -/
  | connectionError (cause : List Char)
  /-- a raw `conn.Read` error returned unwrapped from the read loop. -/
  | readError (cause : List Char)
  deriving DecidableEq

/-- Go: `strings.Count(string(response), "ok")` — the number of
non-overlapping occurrences of the literal token `"ok"`, scanning left to
right. -/
def countOk : List Char → Nat
  | [] => 0
  | 'o' :: 'k' :: rest => countOk rest + 1
  | _ :: rest => countOk rest

/-- Go: `func (c *IPCClient) validateResponse(params []string, response []byte) error`.
The receiver's `Validate` field is passed explicitly as `validate`.
Mirrors the source order: the `!c.Validate` short-circuit comes first,
then the empty-response check, then the `got`/`want` comparison. -/
def validateResponse (validate : Bool) (params : List (List Char))
    (response : RawResponse) : Except IPCError Unit :=
  if !validate then .ok ()
  else if response = [] then .error .emptyResponse
  else
    let got := countOk response
    let want := if params.length = 0 then 1 else params.length
    if got < want then .error (.validationError got want response)
    else .ok ()

/-- Go: `func unmarshalResponse(response []byte, v any) (err error)`.
`json.Unmarshal` is an external collaborator, abstracted as the
`jsonUnmarshal` oracle; only the empty-response guard and the wrapping of
a parse failure are this repository's code. -/
def unmarshalResponse (jsonUnmarshal : RawResponse → Except (List Char) Unit)
    (response : RawResponse) : Except IPCError Unit :=
  if response = [] then .error .emptyResponse
  else
    match jsonUnmarshal response with
    | .error e => .error (.unmarshalError e)
    | .ok _ => .ok ()

/-- Go: the tail of `func (c *IPCClient) Splash()` — it returns
`string(response), nil` with no validation and no empty-response check. -/
def splashResult (response : RawResponse) : Except IPCError (List Char) :=
  .ok response

/-- Outcome of `prepareRequests`: the Go function either panics (on an
empty command) or returns the `[][]byte` of requests. -/
inductive PrepOutcome where
  | panicked (msg : List Char)
  | ok (requests : List RawRequest)
  deriving DecidableEq

/-- The byte string one iteration of the batching loop writes into the
buffer for the chunk `params[i:end]`: `"[[BATCH]]"` then, for each
parameter of the chunk in order, `command + " " + param + ";"`. -/
def chunkContent (command : List Char) (chunk : List (List Char)) : List Char :=
  "[[BATCH]]".data ++
    (chunk.map (fun p => command ++ " ".data ++ p ++ ";".data)).flatten

/-- Iterations of the Go loop `for i := 0; i < len(params); i += MAX_COMMANDS`,
with an explicit structural bound `fuel` on the number of iterations so
that the recursion is structural (each iteration consumes at least one
element, so any `fuel ≥ length` is enough; the `fuel = 0` arm with a
non-empty list is never reached from `chunksOf30`). -/
def chunksOf30Go : Nat → List (List Char) → List (List (List Char))
  | _, [] => []
  | 0, _ :: _ => []
  | fuel + 1, x :: xs =>
    (x :: xs).take MAX_COMMANDS :: chunksOf30Go fuel ((x :: xs).drop MAX_COMMANDS)

/-- The contiguous chunks of at most `MAX_COMMANDS` parameters visited by
the Go loop `for i := 0; i < len(params); i += MAX_COMMANDS`. -/
def chunksOf30 (l : List (List Char)) : List (List (List Char)) :=
  chunksOf30Go l.length l

/-- One `buffer.Reset()` followed by writing `content`, acting on the
shared backing array `store` of the `bytes.Buffer`: the first
`content.length` bytes are overwritten and the stale bytes beyond them
are kept (Reset keeps the allocated array; subsequent writes fill it from
position 0). -/
def overwrite (content store : List Char) : List Char :=
  content ++ store.drop content.length

/-- Go: `func prepareRequests(command string, params []string) (requests [][]byte)`.

The batching branch reuses a single `bytes.Buffer` across loop
iterations and appends `buffer.Bytes()` — a slice aliasing the buffer's
backing array, valid (per the bytes package documentation) only until the
next buffer modification.  Consequently every element of `requests`
is a view of one shared array: a view records its length at append time,
and the array's final contents are those left by the sequence of
Reset/write cycles.  This is modelled by folding `overwrite` over the
chunk contents to obtain the final backing array and taking each view's
recorded length from it.  (The model assumes the backing array is never
reallocated after the first chunk is built, which holds whenever no later
chunk is longer than an earlier one — in particular for the single-chunk
case, where the model coincides with the intended per-chunk contents, and
for the concrete inputs used below.) -/
def prepareRequests (command : List Char) (params : List (List Char)) : PrepOutcome :=
  if command = [] then .panicked "empty command".data
  else
    match params with
    | [] => .ok [command]
    | [p] => .ok [command ++ " ".data ++ p]
    | p1 :: p2 :: rest =>
      let contents := (chunksOf30 (p1 :: p2 :: rest)).map (chunkContent command)
      let finalStore := contents.foldl (fun store c => overwrite c store) []
      .ok (contents.map (fun c => finalStore.take c.length))

/-- What the batching loop is intended to return (spec §4.2, and what the
source would return if each appended request owned its bytes): one
request per chunk, each equal to its own chunk's batch string. -/
def prepareRequestsIntended (command : List Char) (params : List (List Char)) : PrepOutcome :=
  if command = [] then .panicked "empty command".data
  else
    match params with
    | [] => .ok [command]
    | [p] => .ok [command ++ " ".data ++ p]
    | p1 :: p2 :: rest =>
      .ok ((chunksOf30 (p1 :: p2 :: rest)).map (chunkContent command))

/-- The error component of one `conn.Read` result. -/
inductive ReadErr where
  | eof
  | other (msg : List Char)
  deriving DecidableEq

/-- One scripted `conn.Read(buf)` result: the bytes placed in the buffer
(`n = data.length ≤ BUF_SIZE` for any real connection) and the returned
error. -/
structure ReadRes where
  data : List Char
  err : Option ReadErr
  deriving DecidableEq

/-- Outcome of a `Request` call.  `panicked` models a runtime panic,
`blocked` models a read that suspends forever because the scripted
connection offers no further result. -/
inductive ReqOutcome where
  | panicked
  | blocked
  | fail (e : IPCError)
  | ok (response : RawResponse)
  deriving DecidableEq

/-- The read loop of `Request`: on a read error it returns the error
(break first on `io.EOF`, discarding that read's count, which is 0 on a
real connection); otherwise it appends `buf[:n]` to the accumulated
response and stops as soon as a read returns fewer than `BUF_SIZE`
bytes. -/
def readLoop : List ReadRes → List Char → ReqOutcome
  | [], _ => .blocked
  | r :: rest, acc =>
    match r.err with
    | some .eof => .ok acc
    | some (.other m) => .fail (.readError m)
    | none =>
      if r.data.length < BUF_SIZE then .ok (acc ++ r.data)
      else readLoop rest (acc ++ r.data)

/-- The observable result of one `Request` call: its outcome, the
payloads passed to `conn.Write` (in order), and whether the connection
was closed by the time the call returned. -/
structure RequestRun where
  outcome : ReqOutcome
  writes : List (List Char)
  closed : Bool
  deriving DecidableEq

/-- Go: `func (c *IPCClient) Request(request []byte) (response []byte, err error)`.

The connection is abstracted into oracles: `dialErr` is the error of
`net.DialUnix` (`none` = a connection was obtained), `writeErr` the error
of `conn.Write`, `reads` the script of `conn.Read` results.

The source registers `defer conn.Close()` BEFORE checking the dial
error.  When the dial fails, `conn` is a nil `*net.UnixConn`, and the
deferred `conn.Close()` — a promoted method that dereferences the nil
receiver to reach the embedded `conn` field — panics with a nil-pointer
dereference while the function is returning its error.  That path is
therefore modelled as `panicked` with no write and no close. -/
def Request (request : RawRequest) (dialErr : Option (List Char))
    (writeErr : Option (List Char)) (reads : List ReadRes) : RequestRun :=
  if request = [] then ⟨.fail .emptyRequest, [], false⟩
  else
    match dialErr with
    | some _ => ⟨.panicked, [], false⟩
    | none =>
      let payload := 'j' :: '/' :: request
      match writeErr with
      | some m => ⟨.fail (.connectionError m), [payload], true⟩
      | none =>
        match readLoop reads [] with
        | .blocked => ⟨.blocked, [payload], false⟩
        | out => ⟨out, [payload], true⟩

/-- The client value built by `NewClient` (Go struct `IPCClient`); the
event connection handle is abstract. -/
structure IPCClient where
  Validate : Bool
  requestConn : List Char
  eventConn : Unit
  deriving DecidableEq

/-- Go: `func NewClient(requestSocket, eventSocket string) (*IPCClient, error)`.
`dial` abstracts `net.Dial("unix", eventSocket)`. -/
def NewClient (requestSocket eventSocket : List Char)
    (dial : Except (List Char) Unit) : Except IPCError IPCClient :=
  if requestSocket = [] ∨ eventSocket = [] then .error .emptySocketPaths
  else
    match dial with
    | .error m => .error (.connectionError m)
    | .ok c => .ok { Validate := true, requestConn := requestSocket, eventConn := c }

/-- Go: `type ReceivedData struct { Type EventType; Data RawData }`
(field `Type` renamed: `Type` is reserved in Lean). -/
structure ReceivedData where
  etype : EventType
  edata : RawData
  deriving DecidableEq

/-- Modelled from the spec: the event reader's line decoder is absent
from the provided sources (only the `EventClient` struct appears);
§4.5 says a complete line is split on the first occurrence of the
type/data separator `">>"` into (EventType, RawData).  Returns `none`
when the separator does not occur. -/
def splitOnSep : List Char → Option (List Char × List Char)
  | [] => none
  | '>' :: '>' :: rest => some ([], rest)
  | c :: rest =>
    match splitOnSep rest with
    | none => none
    | some (a, b) => some (c :: a, b)

/-- Modelled from the spec: one complete line becomes one Event Record,
`(EventType, RawData)` at the first `">>"`; a line with no separator is
carried whole as its type with empty data. -/
def lineToEvent (line : List Char) : ReceivedData :=
  match splitOnSep line with
  | some (t, d) => ⟨t, d⟩
  | none => ⟨line, []⟩

/-- Modelled from the spec: split a byte sequence into its complete
newline-terminated lines (terminators stripped) and the partial trailing
line still awaiting its terminator. -/
def splitNL : List Char → List (List Char) × List Char
  | [] => ([], [])
  | '\n' :: rest =>
    let (ls, t) := splitNL rest
    ([] :: ls, t)
  | c :: rest =>
    match splitNL rest with
    | ([], t) => ([], c :: t)
    | (l :: ls, t) => ((c :: l) :: ls, t)

/-- Modelled from the spec: one read cycle of the Event Stream Reader —
the buffered partial line is prefixed onto the chunk just read, complete
lines become Event Records in order, and the new partial trailing line is
buffered. -/
def feed (buffered chunk : List Char) : List ReceivedData × List Char :=
  let (ls, t) := splitNL (buffered ++ chunk)
  (ls.map lineToEvent, t)

/-- Modelled from the spec: the events delivered, in order, after the
scripted sequence of reads `chunks`, together with the final buffered
partial line. -/
def decodeStream (chunks : List (List Char)) : List ReceivedData × List Char :=
  chunks.foldl
    (fun st chunk =>
      let (new, buf) := feed st.2 chunk
      (st.1 ++ new, buf))
    ([], [])

/-! ## Helper lemmas -/

theorem chunksOf30Go_nil (fuel : Nat) : chunksOf30Go fuel [] = [] := by
  cases fuel <;> rfl

/-- With enough fuel, the loop produces `⌈length / 30⌉` =
`(length + 29) / 30` chunks for a non-empty list. -/
theorem chunksOf30Go_length (fuel : Nat) :
    ∀ l : List (List Char), l.length ≤ fuel → l ≠ [] →
      (chunksOf30Go fuel l).length = (l.length + 29) / 30 := by
  induction fuel with
  | zero =>
    intro l hf h
    cases l with
    | nil => exact absurd rfl h
    | cons x xs => simp at hf
  | succ fuel ih =>
    intro l hf h
    cases l with
    | nil => exact absurd rfl h
    | cons x xs =>
      rw [chunksOf30Go]
      by_cases hd : (x :: xs).drop MAX_COMMANDS = []
      · have hle : (x :: xs).length ≤ MAX_COMMANDS := List.drop_eq_nil_iff.mp hd
        rw [hd, chunksOf30Go_nil]
        simp only [MAX_COMMANDS, List.length_cons] at hle ⊢
        simp only [List.length_cons, List.length_nil]
        omega
      · have hlen : MAX_COMMANDS < (x :: xs).length := by
          by_contra hc
          exact hd (List.drop_eq_nil_of_le (by omega))
        rw [List.length_cons, ih _
          (by
            simp only [List.length_drop, List.length_cons, MAX_COMMANDS] at hf ⊢
            omega) hd]
        simp only [List.length_drop, MAX_COMMANDS, List.length_cons] at *
        omega

/-- Number of chunks the batching loop visits: `⌈length / 30⌉`, i.e.
`(length + 29) / 30`, for a non-empty parameter list. -/
theorem chunksOf30_length (l : List (List Char)) (h : l ≠ []) :
    (chunksOf30 l).length = (l.length + 29) / 30 :=
  chunksOf30Go_length l.length l le_rfl h

/-- Reading a run of exactly-`BUF_SIZE` chunks (no error) appends all of
them to the accumulator and keeps looping. -/
theorem readLoop_full_chunks (full : List (List Char))
    (hfull : ∀ c ∈ full, c.length = BUF_SIZE) (rest : List ReadRes)
    (acc : List Char) :
    readLoop (full.map (fun c => ⟨c, none⟩) ++ rest) acc =
      readLoop rest (acc ++ full.flatten) := by
  induction full generalizing acc with
  | nil => simp
  | cons c cs ih =>
    have hc : c.length = BUF_SIZE := hfull c (by simp)
    simp only [List.map_cons, List.cons_append, readLoop]
    rw [if_neg (by omega)]
    simp only [List.append_eq]
    rw [ih (fun d hd => hfull d (by simp [hd]))]
    simp

/-! ## Claim theorems -/

set_option maxRecDepth 8192

/-- Claim C1: with validation enabled and a non-empty response,
`validateResponse` counts the non-overlapping occurrences of `"ok"` as
`got`, takes `want` to be the parameter count (1 when the list is
empty), fails with the validation error carrying (got, want, response)
exactly when `got < want`, and succeeds otherwise. -/
theorem validateResponse_counts (params : List (List Char))
    (response : RawResponse) (h : response ≠ []) :
    validateResponse true params response =
      (let got := countOk response
       let want := if params = [] then 1 else params.length
       if got < want then Except.error (.validationError got want response)
       else Except.ok ()) := by
  cases params with
  | nil => simp [validateResponse, h]
  | cons p ps => simp [validateResponse, h]

/-- Witness for C1: three parameters but only two `"ok"` markers fail
with `got = 2`, `want = 3`. -/
theorem validateResponse_counts_witness :
    validateResponse true ["a".data, "b".data, "c".data] "okok".data =
      Except.error (.validationError 2 3 "okok".data) := by
  rw [validateResponse_counts ["a".data, "b".data, "c".data] "okok".data
    (by decide)]
  rfl

/-- Claim C2: for a non-empty command, `prepareRequests` produces 1
request for 0 parameters, 1 for a single parameter, and `⌈N / 30⌉`
(= `(N + 29) / 30`) for `N ≥ 2` parameters. -/
theorem prepareRequests_count (command : List Char)
    (params : List (List Char)) (hc : command ≠ []) :
    ∃ rs, prepareRequests command params = .ok rs ∧
      (params.length = 0 → rs.length = 1) ∧
      (params.length = 1 → rs.length = 1) ∧
      (2 ≤ params.length → rs.length = (params.length + 29) / 30) := by
  match params with
  | [] =>
    exact ⟨[command], by simp [prepareRequests, hc], by simp, by simp, by simp⟩
  | [p] =>
    exact ⟨[command ++ " ".data ++ p], by simp [prepareRequests, hc], by simp,
      by simp, by simp⟩
  | p1 :: p2 :: rest =>
    refine ⟨((chunksOf30 (p1 :: p2 :: rest)).map (chunkContent command)).map
        (fun c =>
          ((((chunksOf30 (p1 :: p2 :: rest)).map (chunkContent command)).foldl
              (fun store c => overwrite c store) []).take c.length)),
      ?_, by simp, by simp, fun _ => ?_⟩
    · simp only [prepareRequests, if_neg hc]
    · simp only [List.length_map]
      exact chunksOf30_length _ (by simp)

/-- Witness for C2: 31 parameters yield `⌈31 / 30⌉ = 2` requests. -/
theorem prepareRequests_count_witness :
    ∃ rs,
      prepareRequests "dispatch".data
          ((List.range 31).map (fun i => [Char.ofNat (65 + i)])) = .ok rs ∧
      ((((List.range 31).map (fun i => [Char.ofNat (65 + i)])).length = 0 →
          rs.length = 1) ∧
        (((List.range 31).map (fun i => [Char.ofNat (65 + i)])).length = 1 →
          rs.length = 1) ∧
        (2 ≤ ((List.range 31).map (fun i => [Char.ofNat (65 + i)])).length →
          rs.length =
            ((((List.range 31).map (fun i => [Char.ofNat (65 + i)])).length +
              29) / 30))) := by
  obtain ⟨rs, h1, h2⟩ := prepareRequests_count "dispatch".data
    ((List.range 31).map (fun i => [Char.ofNat (65 + i)])) (by decide)
  exact ⟨rs, h1, h2⟩

/-- 31 pairwise distinct one-byte parameters (ASCII `A` … `_`): enough to
force two batching chunks, with distinct contents so that the buffer
aliasing is observable. -/
def c3params : List (List Char) :=
  "ABCDEFGHIJKLMNOPQRSTUVWXYZ[\\]^_".data.map (fun c => [c])

/-- Claim C3 (bug evaluation): with 31 parameters the first returned
request is NOT its chunk's batch string — it comes back as the second
chunk's content followed by stale bytes of the first (the appended
`buffer.Bytes()` slices all alias the one reused buffer) — so the result
differs from the per-chunk contents the batching is intended to
produce. -/
theorem prepareRequests_batch_aliasing :
    prepareRequests "c".data c3params =
      .ok
        [overwrite (chunkContent "c".data (c3params.drop 30))
            (chunkContent "c".data (c3params.take 30)),
          chunkContent "c".data (c3params.drop 30)] ∧
    prepareRequestsIntended "c".data c3params =
      .ok
        [chunkContent "c".data (c3params.take 30),
          chunkContent "c".data (c3params.drop 30)] ∧
    overwrite (chunkContent "c".data (c3params.drop 30))
        (chunkContent "c".data (c3params.take 30)) ≠
      chunkContent "c".data (c3params.take 30) := by
  refine ⟨by decide, by decide, by decide⟩

/-- Claim C4: with a successful dial and write, `Request` writes exactly
`"j/" ++ request` and reassembles the response as the in-order
concatenation of all chunks read, stopping at the first short read
(first conjunct) or at end-of-stream (second conjunct). -/
theorem request_reassembles (request : RawRequest) (full : List (List Char))
    (last : List Char) (hreq : request ≠ [])
    (hfull : ∀ c ∈ full, c.length = BUF_SIZE)
    (hlast : last.length < BUF_SIZE) :
    Request request none none (full.map (fun c => ⟨c, none⟩) ++ [⟨last, none⟩]) =
      ⟨.ok (full.flatten ++ last), ['j' :: '/' :: request], true⟩ ∧
    Request request none none
        (full.map (fun c => ⟨c, none⟩) ++ [⟨[], some .eof⟩]) =
      ⟨.ok full.flatten, ['j' :: '/' :: request], true⟩ := by
  constructor
  · simp only [Request, if_neg hreq]
    rw [readLoop_full_chunks full hfull _ []]
    simp [readLoop, hlast]
  · simp only [Request, if_neg hreq]
    rw [readLoop_full_chunks full hfull _ []]
    simp [readLoop]

/-- Witness for C4: a response of exactly `3 × BUF_SIZE` bytes followed
by a short final read reconstructs to the full original byte
sequence. -/
theorem request_reassembles_witness :
    Request "splash".data none none
        ((List.replicate 3 (List.replicate BUF_SIZE 'x')).map
            (fun c => ⟨c, none⟩) ++ [⟨"end".data, none⟩]) =
      ⟨.ok ((List.replicate 3 (List.replicate BUF_SIZE 'x')).flatten ++
          "end".data),
        ['j' :: '/' :: "splash".data], true⟩ :=
  (request_reassembles "splash".data
      (List.replicate 3 (List.replicate BUF_SIZE 'x')) "end".data
      (by decide)
      (by
        intro c hc
        rw [List.eq_of_mem_replicate hc]
        simp)
      (by decide)).1

/-- Claim C5 (counterexample): a request-issuing call that validates its
response does NOT fail on a zero-length response when `Validate` is
false — `validateResponse` returns before the empty-response check. -/
theorem validateResponse_skips_empty_check :
    validateResponse false [] [] = Except.ok () := rfl

/-- Claim C5 (amended): a zero-length response fails with the
empty-response error in `validateResponse` when `Validate` is true and
in `unmarshalResponse` always; with `Validate` false `validateResponse`
accepts it, and `Splash` (which neither validates nor decodes) returns
it without error. -/
theorem emptyResponse_failure_paths (params : List (List Char))
    (jsonUnmarshal : RawResponse → Except (List Char) Unit) :
    validateResponse true params [] = Except.error .emptyResponse ∧
    unmarshalResponse jsonUnmarshal [] = Except.error .emptyResponse ∧
    validateResponse false params [] = Except.ok () ∧
    splashResult [] = Except.ok [] :=
  ⟨rfl, rfl, rfl, rfl⟩

/-- Claim C6: with `Validate` false, `validateResponse` succeeds on
every parameter list and every response, including the empty one. -/
theorem validateResponse_disabled_always_ok (params : List (List Char))
    (response : RawResponse) :
    validateResponse false params response = Except.ok () := rfl

/-- Claim C7 (counterexample): preparing requests for the empty command
panics (aborts abruptly with "empty command") instead of returning an
error value to the caller. -/
theorem prepareRequests_empty_command_panics :
    prepareRequests [] ["exec kitty".data] = .panicked "empty command".data :=
  rfl

/-- Claim C7 (amended): for every parameter list, preparing requests for
an empty command string panics with message "empty command"; no error
value is returned. -/
theorem prepareRequests_empty_command_panics_always
    (params : List (List Char)) :
    prepareRequests [] params = .panicked "empty command".data := rfl

/-- Claim C8 (bug evaluation): when the dial of the request socket
fails, `Request` panics (the `defer conn.Close()` registered before the
error check dereferences the nil connection) — it neither returns the
connection error nor closes a connection. -/
theorem request_dial_failure_panics :
    Request "dispatch exec kitty".data
        (some "connect: no such file or directory".data) none [] =
      ⟨.panicked, [], false⟩ := by decide

/-- The event-stream byte sequence of the spec's two-read example
(33 bytes). -/
def eventSample : List Char := "workspace>>3\nfocusedmon>>eDP-1,3\n".data

/-- Claim C9: however the sample stream is split into two underlying
reads — at every byte position `n`, including every mid-line split — the
decoder delivers exactly the records (workspace, 3) then
(focusedmon, eDP-1,3), in that order, with nothing buffered afterwards:
no data is lost or reordered across the read boundary. -/
theorem eventStream_two_reads (n : Nat) :
    decodeStream [eventSample.take n, eventSample.drop n] =
      ([⟨"workspace".data, "3".data⟩, ⟨"focusedmon".data, "eDP-1,3".data⟩],
        []) := by
  rcases Nat.lt_or_ge n 34 with h | h
  · interval_cases n <;> decide
  · have hl : eventSample.length ≤ n := by
      have he : eventSample.length = 33 := rfl
      omega
    rw [List.take_of_length_le hl, List.drop_eq_nil_of_le hl]
    decide

/-- Claim C10: any successful construction by `NewClient` yields a
client whose `Validate` field is true. -/
theorem newClient_validate_default (requestSocket eventSocket : List Char)
    (dial : Except (List Char) Unit) (cl : IPCClient)
    (h : NewClient requestSocket eventSocket dial = .ok cl) :
    cl.Validate = true := by
  unfold NewClient at h
  split at h
  · exact absurd h (by simp)
  · cases dial with
    | error m => simp at h
    | ok c =>
      simp only [Except.ok.injEq] at h
      rw [← h]

/-- Witness for C10: constructing with two non-empty socket paths and a
successful dial yields `Validate = true`. -/
theorem newClient_validate_default_witness :
    ∃ cl, NewClient "/run/user/1000/hypr/sig/.socket.sock".data
        "/run/user/1000/hypr/sig/.socket2.sock".data (.ok ()) = .ok cl ∧
      cl.Validate = true :=
  ⟨⟨true, "/run/user/1000/hypr/sig/.socket.sock".data, ()⟩, rfl,
    newClient_validate_default "/run/user/1000/hypr/sig/.socket.sock".data
      "/run/user/1000/hypr/sig/.socket2.sock".data (.ok ())
      ⟨true, "/run/user/1000/hypr/sig/.socket.sock".data, ()⟩ rfl⟩

end Hyprland
